import Mathlib

/-!
Verification of the session/tab state machine and the file index + fuzzy
search engine of the `papers` desktop shell (src/src-tauri/src/tabs.rs and
src/src-tauri/src/file_search.rs), as a shallow embedding: each Rust
command is translated into a pure Lean function on an explicit state,
host-binding calls that can fail are passed in as explicit outcomes, and
the external fuzzy scorer (the nucleo library) is a parameter.
-/

/-- Tab metadata (tabs.rs, `struct TabInfo`). -/
structure TabInfo where
  id : String
  tab_type : String
  paper_path : Option String
  title : String
deriving DecidableEq, Repr, Inhabited

/-- Session state (tabs.rs, `struct TabState`): the ordered tab list and the
id of the active tab. -/
structure TabState where
  tabs : List TabInfo
  active_tab_id : String
deriving DecidableEq, Repr, Inhabited

/-- Outcomes of the three fallible host-binding calls that `create_tab`
performs before touching the session state:
`app.get_window("main")` (present or not), `window.inner_size()` and
`window.add_child(...)` (each `Ok` or an error string). -/
structure Host where
  mainWindow : Bool
  innerSize : Except String Unit
  addChild : Except String Unit
deriving Repr

/-- tabs.rs `create_tab`: resolve the main window, query its size, add the
new webview as a child, and only then append the new tab and make it active.
The fresh UUID label is passed in as `newId`; the hide/focus calls on
webviews have no effect on the session state and are omitted. -/
def create_tab (h : Host) (newId : String) (tab_type : String)
    (paper_path : Option String) (title : String) (s : TabState) :
    TabState × Except String String :=
  if h.mainWindow = false then (s, Except.error "Main window not found")
  else
    match h.innerSize with
    | Except.error e => (s, Except.error e)
    | Except.ok _ =>
      match h.addChild with
      | Except.error e => (s, Except.error e)
      | Except.ok _ =>
        let tab : TabInfo :=
          { id := newId, tab_type := tab_type, paper_path := paper_path,
            title := title }
        ({ tabs := s.tabs ++ [tab], active_tab_id := newId }, Except.ok newId)

/-- tabs.rs `TabManager::remove_tab`: remove the first tab whose id matches,
returning its former index (or `none` when absent, leaving the list alone). -/
def remove_tab (id : String) (s : TabState) : TabState × Option Nat :=
  match s.tabs.findIdx? (fun t => t.id == id) with
  | some pos => ({ s with tabs := s.tabs.eraseIdx pos }, some pos)
  | none => (s, none)

/-- tabs.rs `close_tab`: refuse to close the last tab; otherwise remove the
tab, and when it was the active one re-activate the tab now at its index
(clamped to the new last index). Always returns `Ok`. -/
def close_tab (id : String) (s : TabState) : TabState × Except String Unit :=
  if s.tabs.length ≤ 1 then (s, Except.ok ())
  else
    let was_active := s.active_tab_id == id
    let r := remove_tab id s
    let s1 := r.1
    let s2 :=
      if was_active then
        match r.2 with
        | some idx =>
          let new_index := if s1.tabs.length ≤ idx then s1.tabs.length - 1 else idx
          match s1.tabs[new_index]? with
          | some new_tab => { s1 with active_tab_id := new_tab.id }
          | none => s1
        | none => s1
      else s1
    (s2, Except.ok ())

/-- tabs.rs `switch_tab`: error when no tab has the given id, otherwise make
it the active tab (the hide/show/focus webview calls carry no session
state). -/
def switch_tab (id : String) (s : TabState) : TabState × Except String Unit :=
  if s.tabs.any (fun t => t.id == id) then
    ({ s with active_tab_id := id }, Except.ok ())
  else (s, Except.error "Tab not found")

/-- The index of the active tab as tabs.rs computes it:
`position(..).unwrap_or(0)`. -/
def current_index_of (s : TabState) : Nat :=
  (s.tabs.findIdx? (fun t => t.id == s.active_tab_id)).getD 0

theorem current_index_of_lt (s : TabState) (h : 0 < s.tabs.length) :
    current_index_of s < s.tabs.length := by
  unfold current_index_of
  cases hf : s.tabs.findIdx? (fun t => t.id == s.active_tab_id) with
  | none => simpa using h
  | some i =>
    simpa using (List.findIdx?_eq_some_iff_findIdx_eq.1 hf).1

/-- tabs.rs `next_tab`: no-op with at most one tab, otherwise switch to the
tab at `(current_index + 1) % len`. -/
def next_tab (s : TabState) : TabState × Except String Unit :=
  if hle : s.tabs.length ≤ 1 then (s, Except.ok ())
  else
    let next_index := (current_index_of s + 1) % s.tabs.length
    have hlt : next_index < s.tabs.length := Nat.mod_lt _ (by omega)
    switch_tab s.tabs[next_index].id s

/-- tabs.rs `prev_tab`: no-op with at most one tab, otherwise switch to the
tab at `len - 1` when the current index is `0`, else at `current_index - 1`. -/
def prev_tab (s : TabState) : TabState × Except String Unit :=
  if hle : s.tabs.length ≤ 1 then (s, Except.ok ())
  else
    let prev_index := if current_index_of s = 0 then s.tabs.length - 1
      else current_index_of s - 1
    have hlt : prev_index < s.tabs.length := by
      have := current_index_of_lt s (by omega)
      simp only [prev_index]
      split <;> omega
    switch_tab s.tabs[prev_index].id s

/-- tabs.rs `switch_tab_by_index`: error when the index is out of bounds,
otherwise delegate to `switch_tab` on the id of the tab at that index. -/
def switch_tab_by_index (index : Nat) (s : TabState) :
    TabState × Except String Unit :=
  if hlt : index < s.tabs.length then switch_tab s.tabs[index].id s
  else (s, Except.error "Tab index out of bounds")

/-- tabs.rs `update_current_tab_title` body: update the title of the first
tab whose id matches the calling webview's label. -/
def update_title (tabs : List TabInfo) (tab_id new_title : String) :
    List TabInfo :=
  match tabs with
  | [] => []
  | t :: ts =>
    if t.id == tab_id then { t with title := new_title } :: ts
    else t :: update_title ts tab_id new_title

/-- tabs.rs `update_current_tab_title`: always succeeds; a missing id is a
silent no-op. `tab_id` is the label of the webview issuing the command. -/
def update_current_tab_title (tab_id new_title : String) (s : TabState) :
    TabState × Except String Unit :=
  ({ s with tabs := update_title s.tabs tab_id new_title }, Except.ok ())

/-- The session state right after startup: `create_initial_tab` has created
a single "home" tab titled "Library" (with some fresh id) and made it
active. -/
def initial_state (id0 : String) : TabState :=
  { tabs := [{ id := id0, tab_type := "home", paper_path := none,
               title := "Library" }],
    active_tab_id := id0 }

/-- States of the session reachable from the initial single-tab state by the
user-facing tab commands. The `create` step records that the id generated by
`Uuid::new_v4()` is fresh (not the id of any existing tab). -/
inductive Reachable : TabState → Prop where
  | init (id0 : String) : Reachable (initial_state id0)
  | create (s : TabState) (h : Host) (newId tab_type : String)
      (paper_path : Option String) (title : String) :
      Reachable s → newId ∉ s.tabs.map TabInfo.id →
      Reachable (create_tab h newId tab_type paper_path title s).1
  | close (s : TabState) (id : String) :
      Reachable s → Reachable (close_tab id s).1
  | switch (s : TabState) (id : String) :
      Reachable s → Reachable (switch_tab id s).1
  | next (s : TabState) : Reachable s → Reachable (next_tab s).1
  | prev (s : TabState) : Reachable s → Reachable (prev_tab s).1
  | byIndex (s : TabState) (i : Nat) :
      Reachable s → Reachable (switch_tab_by_index i s).1
  | rename (s : TabState) (tab_id new_title : String) :
      Reachable s → Reachable (update_current_tab_title tab_id new_title s).1

/-- The session invariant: tab ids are pairwise distinct, the active id is
the id of some tab, and the tab list is non-empty. -/
def TabInv (s : TabState) : Prop :=
  (s.tabs.map TabInfo.id).Nodup ∧
  s.active_tab_id ∈ s.tabs.map TabInfo.id ∧
  s.tabs ≠ []

/-- file_search.rs `struct FileIndex`, with `Instant` time modelled as whole
seconds (`Nat`): the cached path list and the last-refresh timestamp. -/
structure FileIndex where
  paths : List String
  last_refresh : Nat
deriving DecidableEq, Repr

/-- file_search.rs `FileIndex::update`: replace the snapshot's paths and
reset the last-refresh timestamp to now. -/
def FileIndex.update (idx : FileIndex) (new_paths : List String) (now : Nat) :
    FileIndex :=
  { paths := new_paths, last_refresh := now }

/-- file_search.rs `FileIndex::is_stale`:
`last_refresh.elapsed().as_secs() > threshold_secs`, with elapsed whole
seconds modelled as `now - last_refresh`. The unused `idx.paths` is kept so
the receiver is the whole index, as in the source. -/
def FileIndex.is_stale (idx : FileIndex) (now threshold_secs : Nat) : Bool :=
  decide (threshold_secs < now - idx.last_refresh)

/-- file_search.rs `refresh_file_index` (background task body): run the
document enumerator (`get_markdown_files_mdfind`, an external process call,
passed in as its outcome); on success replace the snapshot via `update`, on
failure only log, keeping the old snapshot. The task returns nothing, so no
error ever reaches a caller. -/
def refresh_file_index (enumerator : Except String (List String))
    (idx : FileIndex) (now : Nat) : FileIndex :=
  match enumerator with
  | Except.ok ps => idx.update ps now
  | Except.error _ => idx

/-- file_search.rs `struct FileSearchResult` (score: `u16`, modelled as
`Nat`). -/
structure FileSearchResult where
  path : String
  display_path : String
  score : Nat
deriving DecidableEq, Repr

/-- Rust `str::trim` on the character list: drop leading and trailing
whitespace. -/
def trimChars (cs : List Char) : List Char :=
  ((cs.dropWhile Char.isWhitespace).reverse.dropWhile Char.isWhitespace).reverse

/-- Rust `query.trim().is_empty()`: the string is blank once whitespace is
trimmed from both ends. -/
def strBlank (s : String) : Bool := (trimChars s.toList).isEmpty

/-- Rust `str::strip_prefix`: the suffix after the prefix, or `none` when
the string does not start with it. -/
def stripPrefixStr (pre s : String) : Option String :=
  if pre.toList.isPrefixOf s.toList then
    some (String.mk (s.toList.drop pre.toList.length))
  else none

/-- The display path file_search.rs computes:
`path.strip_prefix(&home_dir).map(|p| format!("~{}", p)).unwrap_or(path)`. -/
def display_path_of (home_dir path : String) : String :=
  match stripPrefixStr home_dir path with
  | some p => "~" ++ p
  | none => path

/-- file_search.rs `search_files`: on a query that is blank after trimming,
the first 20 indexed paths in order with score 0; otherwise score each path
(against the path with the home prefix stripped) with the fuzzy `scorer`
(the external nucleo `Atom::score`, a parameter here), drop non-matches,
stable-sort by descending score, and keep the top 20. -/
def search_files (scorer : String → String → Option Nat) (home_dir : String)
    (files : List String) (query : String) : List FileSearchResult :=
  if strBlank query then
    (files.take 20).map (fun path =>
      { path := path, display_path := display_path_of home_dir path,
        score := 0 })
  else
    let scored : List (String × Nat) := files.filterMap (fun path =>
      let match_target := (stripPrefixStr home_dir path).getD path
      (scorer query match_target).map (fun sc => (path, sc)))
    let sorted := scored.mergeSort (fun a b => decide (b.2 ≤ a.2))
    (sorted.take 20).map (fun pr =>
      { path := pr.1, display_path := display_path_of home_dir pr.1,
        score := pr.2 })

example :
    (close_tab "a"
      (TabState.mk [⟨"a", "home", none, "t"⟩] "a")).1.tabs.length = 1 := by
  decide

example :
    (next_tab (TabState.mk [⟨"a", "home", none, "t"⟩, ⟨"b", "paper", none, "u"⟩]
      "a")).1.active_tab_id = "b" := by decide

example :
    (prev_tab (TabState.mk [⟨"a", "home", none, "t"⟩, ⟨"b", "paper", none, "u"⟩]
      "a")).1.active_tab_id = "b" := by decide

example :
    search_files (fun _ _ => none) "/h" ["/h/x.md", "y.md"] " " =
      [⟨"/h/x.md", "~/x.md", 0⟩, ⟨"y.md", "y.md", 0⟩] := by decide

/-! ## Helper lemmas -/

theorem pairwise_of_forall {α : Type} {R : α → α → Prop} (h : ∀ x y, R x y) :
    ∀ l : List α, l.Pairwise R
  | [] => List.Pairwise.nil
  | x :: xs => List.Pairwise.cons (fun y _ => h x y) (pairwise_of_forall h xs)

/-- Concrete two-tab session used to instantiate theorems with hypotheses. -/
def sampleTabs : List TabInfo :=
  [⟨"tab-a", "home", none, "Library"⟩, ⟨"tab-b", "paper", some "/a.pdf", "Doc A"⟩]

/-- Concrete two-tab session state, first tab active. -/
def sampleState : TabState := ⟨sampleTabs, "tab-a"⟩

/-! ## Claim theorems -/

/-- C3: if `create_tab` returns an error (in particular when the main host
window cannot be resolved), the session state is exactly as it was before
the call: every fallible host-binding call precedes any state mutation. -/
theorem create_tab_error_atomic (h : Host) (newId tab_type : String)
    (paper_path : Option String) (title : String) (s : TabState) (e : String)
    (herr : (create_tab h newId tab_type paper_path title s).2 = Except.error e) :
    (create_tab h newId tab_type paper_path title s).1 = s := by
  obtain ⟨mw, isz, ac⟩ := h
  cases mw <;> cases isz <;> cases ac <;> simp_all [create_tab]

/-- Witness for C3: with the main window unresolvable, `create_tab` errors
and the initial session state is untouched. -/
theorem create_tab_error_atomic_witness :
    (create_tab (Host.mk false (Except.ok ()) (Except.ok ())) "tab-1" "paper"
        (some "/a.pdf") "Doc" sampleState).2 =
      Except.error "Main window not found" ∧
    (create_tab (Host.mk false (Except.ok ()) (Except.ok ())) "tab-1" "paper"
        (some "/a.pdf") "Doc" sampleState).1 = sampleState :=
  ⟨rfl,
   create_tab_error_atomic (Host.mk false (Except.ok ()) (Except.ok ()))
     "tab-1" "paper" (some "/a.pdf") "Doc" sampleState
     "Main window not found" rfl⟩

/-- C8: `switch_tab_by_index` with an out-of-bounds index returns the
index-out-of-bounds error and leaves the state unchanged; in bounds it
behaves as `switch_tab` on the id of the tab at that index. -/
theorem switch_tab_by_index_contract (s : TabState) (i : Nat) :
    (s.tabs.length ≤ i →
      switch_tab_by_index i s = (s, Except.error "Tab index out of bounds")) ∧
    (∀ hlt : i < s.tabs.length,
      switch_tab_by_index i s = switch_tab (s.tabs.get ⟨i, hlt⟩).id s) := by
  constructor
  · intro hge
    simp [switch_tab_by_index, Nat.not_lt.2 hge]
  · intro hlt
    simp [switch_tab_by_index, hlt]

/-- Witness for C8: on the two-tab sample state, index 5 errors leaving the
state unchanged, and index 1 delegates to `switch_tab` on the second tab. -/
theorem switch_tab_by_index_contract_witness :
    switch_tab_by_index 5 sampleState =
      (sampleState, Except.error "Tab index out of bounds") ∧
    switch_tab_by_index 1 sampleState =
      switch_tab (sampleState.tabs.get ⟨1, by decide⟩).id sampleState :=
  ⟨(switch_tab_by_index_contract sampleState 5).1 (by decide),
   (switch_tab_by_index_contract sampleState 1).2 (by decide)⟩

/-- C9: when the document enumeration fails, the refresh leaves the snapshot
(paths and last-refresh timestamp) exactly as it was, and `update` is
invoked precisely on enumeration success; the background task returns
nothing, so the failure reaches no caller. -/
theorem refresh_file_index_spec (idx : FileIndex) (now : Nat) :
    (∀ e, refresh_file_index (Except.error e) idx now = idx) ∧
    (∀ ps, refresh_file_index (Except.ok ps) idx now = idx.update ps now) :=
  ⟨fun _ => rfl, fun _ => rfl⟩

/-- C6: `is_stale t` is true exactly when the elapsed seconds since the last
refresh exceed `t`; immediately after `update`, `is_stale 0` and
`is_stale t` for positive `t` are false. -/
theorem is_stale_spec (idx : FileIndex) (now threshold_secs : Nat) :
    (idx.is_stale now threshold_secs = true ↔
      threshold_secs < now - idx.last_refresh) ∧
    (∀ ps, (idx.update ps now).is_stale now 0 = false) ∧
    (∀ ps t, 0 < t → (idx.update ps now).is_stale now t = false) := by
  refine ⟨decide_eq_true_iff, fun ps => ?_, fun ps t ht => ?_⟩
  · simp [FileIndex.update, FileIndex.is_stale]
  · simp [FileIndex.update, FileIndex.is_stale]

/-- Witness for C6: a concrete index refreshed at second 5, queried at
second 10. -/
theorem is_stale_spec_witness :
    ((FileIndex.mk ["/h/x.md"] 5).is_stale 10 2 = true ↔ 2 < 10 - 5) ∧
    (((FileIndex.mk ["/h/x.md"] 5).update ["/h/y.md"] 10).is_stale 10 0
      = false) ∧
    0 < 3 ∧
    (((FileIndex.mk ["/h/x.md"] 5).update ["/h/y.md"] 10).is_stale 10 3
      = false) :=
  ⟨(is_stale_spec (FileIndex.mk ["/h/x.md"] 5) 10 2).1,
   (is_stale_spec (FileIndex.mk ["/h/x.md"] 5) 10 2).2.1 ["/h/y.md"],
   by decide,
   (is_stale_spec (FileIndex.mk ["/h/x.md"] 5) 10 2).2.2 ["/h/y.md"] 3
     (by decide)⟩

/-- C10: closing an id that belongs to no tab, in a state with more than one
tab, succeeds and changes nothing. -/
theorem close_tab_absent_id (s : TabState) (id : String)
    (hlen : 1 < s.tabs.length) (habs : ∀ t ∈ s.tabs, t.id ≠ id) :
    close_tab id s = (s, Except.ok ()) := by
  have hf : s.tabs.findIdx? (fun t => t.id == id) = none :=
    List.findIdx?_eq_none_iff.2 (fun t ht => by simpa using habs t ht)
  simp [close_tab, remove_tab, hf, Nat.not_le.2 hlen]

/-- Witness for C10: closing the unknown id "tab-zzz" on the two-tab sample
state is a successful no-op. -/
theorem close_tab_absent_id_witness :
    1 < sampleState.tabs.length ∧
    close_tab "tab-zzz" sampleState = (sampleState, Except.ok ()) :=
  ⟨by decide,
   close_tab_absent_id sampleState "tab-zzz" (by decide) (by decide)⟩

/-- C5: on a query blank after trimming, `search_files` returns the first
`min 20 M` indexed paths in original order, each scored 0, with the display
path obtained by replacing the home prefix with "~" when it matches. -/
theorem search_files_blank_query (scorer : String → String → Option Nat)
    (home_dir query : String) (files : List String)
    (hq : strBlank query = true) :
    ((search_files scorer home_dir files query).length = min 20 files.length) ∧
    ((search_files scorer home_dir files query).map FileSearchResult.path =
      files.take 20) ∧
    (∀ r ∈ search_files scorer home_dir files query,
      r.score = 0 ∧ r.display_path = display_path_of home_dir r.path) := by
  refine ⟨?_, ?_, ?_⟩
  · simp [search_files, hq, List.length_take]
  · have hmap : ∀ l : List String,
        (l.map (fun path =>
          ({ path := path, display_path := display_path_of home_dir path,
             score := 0 } : FileSearchResult))).map FileSearchResult.path = l := by
      intro l
      induction l with
      | nil => rfl
      | cons x xs ih => simp only [List.map_cons, ih]
    simp only [search_files, hq, if_true]
    exact hmap (files.take 20)
  · intro r hr
    simp only [search_files, hq, if_true] at hr
    rcases List.mem_map.1 hr with ⟨p, hp, rfl⟩
    exact ⟨rfl, rfl⟩

/-- Witness for C5: a blank (single space) query over a two-path index. -/
theorem search_files_blank_query_witness :
    strBlank " " = true ∧
    (search_files (fun _ _ => none) "/h" ["/h/x.md", "y.md"] " ").length =
      min 20 (["/h/x.md", "y.md"] : List String).length :=
  ⟨by decide,
   (search_files_blank_query (fun _ _ => none) "/h" " " ["/h/x.md", "y.md"]
     (by decide)).1⟩

/-- C4: for every scorer, home directory, index contents and query,
`search_files` returns at most 20 results with non-increasing scores. -/
theorem search_files_cap_and_sorted (scorer : String → String → Option Nat)
    (home_dir query : String) (files : List String) :
    (search_files scorer home_dir files query).length ≤ 20 ∧
    (search_files scorer home_dir files query).Pairwise
      (fun a b => b.score ≤ a.score) := by
  cases hq : strBlank query with
  | true =>
    constructor
    · simp [search_files, hq, List.length_take]
    · simp only [search_files, hq, if_true]
      refine List.pairwise_map.2 ?_
      exact pairwise_of_forall (fun _ _ => Nat.le_refl 0) _
  | false =>
    constructor
    · simp [search_files, hq, List.length_take]
    · simp only [search_files, hq, Bool.false_eq_true, if_false]
      refine List.pairwise_map.2 ?_
      have hsorted :
          (List.mergeSort
            (files.filterMap (fun path =>
              (scorer query ((stripPrefixStr home_dir path).getD path)).map
                (fun sc => (path, sc))))
            (fun a b => decide (b.2 ≤ a.2))).Pairwise
            (fun a b => (decide (b.2 ≤ a.2)) = true) := by
        apply List.sorted_mergeSort
        · intro a b c hab hbc
          simp only [decide_eq_true_iff] at *
          exact Nat.le_trans hbc hab
        · intro a b
          simp [Nat.le_total b.2 a.2]
      have hsorted' := hsorted.imp (fun hab => of_decide_eq_true hab)
      exact (hsorted'.sublist (List.take_sublist 20 _))


/-- C2: `close_tab` is a no-op on a single tab; with more than one tab and
the id present at index `i` it removes that tab (count drops by one); a
non-active id leaves the active id unchanged, and closing the active tab
re-activates index `i` when still in range, else the new last index. -/
theorem close_tab_contract (s : TabState) (id : String) :
    (s.tabs.length = 1 → close_tab id s = (s, Except.ok ())) ∧
    (∀ i, 1 < s.tabs.length →
      s.tabs.findIdx? (fun t => t.id == id) = some i →
      ((close_tab id s).1.tabs = s.tabs.eraseIdx i ∧
       (close_tab id s).1.tabs.length = s.tabs.length - 1 ∧
       (s.active_tab_id ≠ id →
         (close_tab id s).1.active_tab_id = s.active_tab_id) ∧
       (s.active_tab_id = id →
         (close_tab id s).1.active_tab_id =
           ((s.tabs.eraseIdx i).getD
             (if i < s.tabs.length - 1 then i else s.tabs.length - 1 - 1)
             default).id))) := by
  constructor
  · intro hlen1
    simp [close_tab, hlen1]
  · intro i hlen hf
    have hi : i < s.tabs.length := (List.findIdx?_eq_some_iff_findIdx_eq.1 hf).1
    have hEl : (s.tabs.eraseIdx i).length = s.tabs.length - 1 := by
      rw [List.length_eraseIdx]
      simp [hi]
    have hnl : ¬ s.tabs.length ≤ 1 := by omega
    by_cases hwa : s.active_tab_id = id
    · have hbeq : (s.active_tab_id == id) = true := beq_iff_eq.2 hwa
      have hni : (if (s.tabs.eraseIdx i).length ≤ i
          then (s.tabs.eraseIdx i).length - 1 else i) <
          (s.tabs.eraseIdx i).length := by
        split <;> omega
      have hget : (s.tabs.eraseIdx i)[(if (s.tabs.eraseIdx i).length ≤ i
          then (s.tabs.eraseIdx i).length - 1 else i)]? =
          some ((s.tabs.eraseIdx i).get ⟨_, hni⟩) := by
        rw [List.getElem?_eq_getElem hni]
        simp
      have hclose : (close_tab id s).1 =
          { tabs := s.tabs.eraseIdx i,
            active_tab_id := ((s.tabs.eraseIdx i).get ⟨_, hni⟩).id } := by
        simp only [close_tab, remove_tab, hf, if_neg hnl, hbeq, if_true, hget]
      refine ⟨by rw [hclose], by rw [hclose]; exact hEl,
        fun hne => absurd hwa hne, fun _ => ?_⟩
      have hidx : (if (s.tabs.eraseIdx i).length ≤ i
          then (s.tabs.eraseIdx i).length - 1 else i) =
          (if i < s.tabs.length - 1 then i else s.tabs.length - 1 - 1) := by
        rw [hEl]
        split_ifs <;> omega
      rw [hclose, List.getD_eq_getElem]
      · simp only [List.get_eq_getElem, hidx]
      · omega
    · have hbeq : (s.active_tab_id == id) = false := beq_eq_false_iff_ne.2 hwa
      have hclose : (close_tab id s).1 = { s with tabs := s.tabs.eraseIdx i } := by
        simp only [close_tab, remove_tab, hf, if_neg hnl, hbeq,
          Bool.false_eq_true, if_false]
      exact ⟨by rw [hclose], by rw [hclose]; exact hEl, fun _ => by rw [hclose],
        fun heq => absurd heq hwa⟩

/-- Witness for C2: closing the sole tab of the initial state is a no-op;
closing the active first tab of the two-tab sample state erases index 0 and
activates the tab now at index 0. -/
theorem close_tab_contract_witness :
    close_tab "tab-0" (initial_state "tab-0") =
      (initial_state "tab-0", Except.ok ()) ∧
    (close_tab "tab-a" sampleState).1.tabs = sampleState.tabs.eraseIdx 0 ∧
    (close_tab "tab-a" sampleState).1.active_tab_id =
      ((sampleState.tabs.eraseIdx 0).getD
        (if 0 < sampleState.tabs.length - 1 then 0
         else sampleState.tabs.length - 1 - 1) default).id :=
  ⟨(close_tab_contract (initial_state "tab-0") "tab-0").1 (by decide),
   ((close_tab_contract sampleState "tab-a").2 0 (by decide) (by decide)).1,
   ((close_tab_contract sampleState "tab-a").2 0 (by decide)
     (by decide)).2.2.2 rfl⟩

theorem map_id_eraseIdx (l : List TabInfo) (i : Nat) :
    (l.eraseIdx i).map TabInfo.id = (l.map TabInfo.id).eraseIdx i := by
  induction l generalizing i with
  | nil => simp
  | cons x xs ih =>
    cases i with
    | zero => simp [List.eraseIdx]
    | succ n => simp [List.eraseIdx, ih]

theorem mem_eraseIdx_of_ne {α : Type} {a : α} {l : List α} {i : Nat}
    (ha : a ∈ l) (hne : ∀ h : i < l.length, l[i] ≠ a) : a ∈ l.eraseIdx i := by
  rcases List.mem_iff_getElem.1 ha with ⟨j, hj, hja⟩
  have hji : j ≠ i := by
    intro h
    subst h
    exact hne hj hja
  exact List.mem_eraseIdx_iff_getElem.2 ⟨j, hj, hji, hja⟩

theorem findIdx?_found {α : Type} {p : α → Bool} {l : List α} {i : Nat}
    (hf : l.findIdx? p = some i) :
    ∃ h : i < l.length, p (l.get ⟨i, h⟩) = true := by
  obtain ⟨hi, hidx⟩ := List.findIdx?_eq_some_iff_findIdx_eq.1 hf
  refine ⟨hi, ?_⟩
  have hw : List.findIdx p l < l.length := by omega
  have := @List.findIdx_getElem _ p l hw
  simpa [hidx, List.get_eq_getElem] using this

theorem inv_initial (id0 : String) : TabInv (initial_state id0) := by
  simp [TabInv, initial_state]

theorem inv_create (s : TabState) (h : Host) (newId tab_type : String)
    (paper_path : Option String) (title : String) (hs : TabInv s)
    (hfresh : newId ∉ s.tabs.map TabInfo.id) :
    TabInv (create_tab h newId tab_type paper_path title s).1 := by
  obtain ⟨mw, isz, ac⟩ := h
  cases mw with
  | false => exact hs
  | true =>
    cases isz with
    | error e => exact hs
    | ok u =>
      cases ac with
      | error e => exact hs
      | ok u2 =>
        obtain ⟨hnd, hmem, hne⟩ := hs
        have hcr : (create_tab ⟨true, Except.ok u, Except.ok u2⟩ newId tab_type
            paper_path title s).1 =
            { tabs := s.tabs ++ [⟨newId, tab_type, paper_path, title⟩],
              active_tab_id := newId } := rfl
        rw [hcr]
        refine ⟨?_, ?_, ?_⟩
        · rw [List.map_append, List.nodup_append]
          refine ⟨hnd, by simp, ?_⟩
          intro x hx hx2
          simp only [List.map_cons, List.map_nil, List.mem_singleton] at hx2
          subst hx2
          exact hfresh hx
        · simp
        · simp

theorem inv_switch (s : TabState) (id : String) (hs : TabInv s) :
    TabInv (switch_tab id s).1 := by
  obtain ⟨hnd, hmem, hne⟩ := hs
  unfold switch_tab
  split
  case isTrue hany =>
    refine ⟨hnd, ?_, hne⟩
    rcases List.any_eq_true.1 hany with ⟨t, ht, hbeq⟩
    have htid : t.id = id := by simpa using hbeq
    exact List.mem_map.2 ⟨t, ht, htid⟩
  case isFalse _ => exact ⟨hnd, hmem, hne⟩

theorem inv_close (s : TabState) (id : String) (hs : TabInv s) :
    TabInv (close_tab id s).1 := by
  by_cases hlen : s.tabs.length ≤ 1
  · simpa [close_tab, hlen] using hs
  · cases hf : s.tabs.findIdx? (fun t => t.id == id) with
    | none =>
      have hclose : (close_tab id s).1 = s := by
        simp only [close_tab, remove_tab, hf, if_neg hlen]
        split <;> rfl
      rw [hclose]
      exact hs
    | some i =>
      obtain ⟨hnd, hmem, hne⟩ := hs
      obtain ⟨hi, hpi⟩ := findIdx?_found hf
      have hidt : (s.tabs.get ⟨i, hi⟩).id = id := by simpa using hpi
      have hEl : (s.tabs.eraseIdx i).length = s.tabs.length - 1 := by
        rw [List.length_eraseIdx]
        simp [hi]
      have hndE : ((s.tabs.eraseIdx i).map TabInfo.id).Nodup :=
        ((List.eraseIdx_sublist s.tabs i).map TabInfo.id).nodup hnd
      have hneE : s.tabs.eraseIdx i ≠ [] :=
        List.ne_nil_of_length_pos (by omega)
      by_cases hwa : s.active_tab_id = id
      · have hbeq : (s.active_tab_id == id) = true := beq_iff_eq.2 hwa
        have hni : (if (s.tabs.eraseIdx i).length ≤ i
            then (s.tabs.eraseIdx i).length - 1 else i) <
            (s.tabs.eraseIdx i).length := by
          split <;> omega
        have hget : (s.tabs.eraseIdx i)[(if (s.tabs.eraseIdx i).length ≤ i
            then (s.tabs.eraseIdx i).length - 1 else i)]? =
            some ((s.tabs.eraseIdx i).get ⟨_, hni⟩) := by
          rw [List.getElem?_eq_getElem hni]
          simp
        have hclose : (close_tab id s).1 =
            { tabs := s.tabs.eraseIdx i,
              active_tab_id := ((s.tabs.eraseIdx i).get ⟨_, hni⟩).id } := by
          simp only [close_tab, remove_tab, hf, if_neg hlen, hbeq, if_true, hget]
        rw [hclose]
        exact ⟨hndE,
          List.mem_map.2 ⟨_, (s.tabs.eraseIdx i).get_mem _ hni, rfl⟩, hneE⟩
      · have hbeq : (s.active_tab_id == id) = false := beq_eq_false_iff_ne.2 hwa
        have hclose : (close_tab id s).1 =
            { s with tabs := s.tabs.eraseIdx i } := by
          simp only [close_tab, remove_tab, hf, if_neg hlen, hbeq,
            Bool.false_eq_true, if_false]
        rw [hclose]
        refine ⟨hndE, ?_, hneE⟩
        rw [map_id_eraseIdx]
        refine mem_eraseIdx_of_ne hmem ?_
        intro hlt hcontra
        apply hwa
        rw [List.getElem_map] at hcontra
    -- (map id)[i] = s.tabs[i].id = id, contradicting active ≠ id
        rw [← hcontra]
        simpa [List.get_eq_getElem] using hidt
      
theorem inv_next (s : TabState) (hs : TabInv s) : TabInv (next_tab s).1 := by
  unfold next_tab
  split
  · exact hs
  · exact inv_switch _ _ hs

theorem inv_prev (s : TabState) (hs : TabInv s) : TabInv (prev_tab s).1 := by
  unfold prev_tab
  split
  · exact hs
  · exact inv_switch _ _ hs

theorem inv_byIndex (s : TabState) (i : Nat) (hs : TabInv s) :
    TabInv (switch_tab_by_index i s).1 := by
  unfold switch_tab_by_index
  split
  · exact inv_switch _ _ hs
  · exact hs

theorem update_title_map_id (tabs : List TabInfo) (tab_id new_title : String) :
    (update_title tabs tab_id new_title).map TabInfo.id =
      tabs.map TabInfo.id := by
  induction tabs with
  | nil => rfl
  | cons t ts ih =>
    simp only [update_title]
    split
    · simp
    · simp [ih]

theorem inv_rename (s : TabState) (tab_id new_title : String) (hs : TabInv s) :
    TabInv (update_current_tab_title tab_id new_title s).1 := by
  obtain ⟨hnd, hmem, hne⟩ := hs
  refine ⟨?_, ?_, ?_⟩
  · simpa [update_current_tab_title, update_title_map_id] using hnd
  · simpa [update_current_tab_title, update_title_map_id] using hmem
  · simp only [update_current_tab_title]
    intro hnil
    apply hne
    have := congrArg (List.map TabInfo.id) hnil
    rw [update_title_map_id] at this
    simpa using this

theorem reachable_inv (s : TabState) (hr : Reachable s) : TabInv s := by
  induction hr with
  | init id0 => exact inv_initial id0
  | create s h newId tab_type paper_path title hr hfresh ih =>
    exact inv_create s h newId tab_type paper_path title ih hfresh
  | close s id hr ih => exact inv_close s id ih
  | switch s id hr ih => exact inv_switch s id ih
  | next s hr ih => exact inv_next s ih
  | prev s hr ih => exact inv_prev s ih
  | byIndex s i hr ih => exact inv_byIndex s i ih
  | rename s tab_id new_title hr ih => exact inv_rename s tab_id new_title ih

/-- C1: in every state reachable from the initial single-tab state by the
tab commands, tab ids are pairwise distinct and, the list being non-empty,
the active id is the id of exactly one tab. -/
theorem active_id_invariant (s : TabState) (hr : Reachable s)
    (hne : s.tabs ≠ []) :
    (s.tabs.map TabInfo.id).Nodup ∧
    s.tabs.countP (fun t => t.id == s.active_tab_id) = 1 := by
  obtain ⟨hnd, hmem, _⟩ := reachable_inv s hr
  refine ⟨hnd, ?_⟩
  have h1 : List.count s.active_tab_id (s.tabs.map TabInfo.id) = 1 :=
    List.count_eq_one_of_mem hnd hmem
  rw [List.count_eq_countP, List.countP_map] at h1
  exact h1

/-- Witness for C1: the initial state, reachable by construction, has one
tab whose id the active id matches exactly once. -/
theorem active_id_invariant_witness :
    (initial_state "tab-0").tabs ≠ [] ∧
    (((initial_state "tab-0").tabs.map TabInfo.id).Nodup ∧
      (initial_state "tab-0").tabs.countP
        (fun t => t.id == (initial_state "tab-0").active_tab_id) = 1) :=
  ⟨by decide,
   active_id_invariant (initial_state "tab-0") (Reachable.init "tab-0")
     (by decide)⟩

theorem findIdx?_id_get (l : List TabInfo) (hnd : (l.map TabInfo.id).Nodup)
    (k : Nat) (hk : k < l.length) :
    l.findIdx? (fun t => t.id == (l.get ⟨k, hk⟩).id) = some k := by
  have hex : ∃ x ∈ l, (fun t => t.id == (l.get ⟨k, hk⟩).id) x = true :=
    ⟨l.get ⟨k, hk⟩, l.get_mem k hk, by simp⟩
  have h1 := List.findIdx?_eq_some_of_exists hex
  have hflt : List.findIdx (fun t => t.id == (l.get ⟨k, hk⟩).id) l < l.length :=
    List.findIdx_lt_length_of_exists hex
  have hflt2 : List.findIdx (fun t => t.id == (l.get ⟨k, hk⟩).id) l <
      (l.map TabInfo.id).length := by simpa using hflt
  have hk2 : k < (l.map TabInfo.id).length := by simpa using hk
  have hp := @List.findIdx_getElem _ (fun t => t.id == (l.get ⟨k, hk⟩).id)
    l hflt
  have hpe : (l[List.findIdx (fun t => t.id == (l.get ⟨k, hk⟩).id) l]).id =
      (l.get ⟨k, hk⟩).id := by simpa using hp
  have hm1 : (l.map TabInfo.id)[List.findIdx
      (fun t => t.id == (l.get ⟨k, hk⟩).id) l] = (l.map TabInfo.id)[k] := by
    rw [List.getElem_map, List.getElem_map]
    simpa [List.get_eq_getElem] using hpe
  have hidx := (@List.Nodup.getElem_inj_iff _ (l.map TabInfo.id) hnd
    _ hflt2 _ hk2).1 hm1
  rw [h1, hidx]

theorem next_tab_eq (s : TabState) (k : Nat) (hk : k < s.tabs.length)
    (hlen : 1 < s.tabs.length) (hnd : (s.tabs.map TabInfo.id).Nodup)
    (hact : s.active_tab_id = (s.tabs.get ⟨k, hk⟩).id) :
    (next_tab s).1 =
      { tabs := s.tabs,
        active_tab_id :=
          (s.tabs.get ⟨(k + 1) % s.tabs.length,
            Nat.mod_lt _ (by omega)⟩).id } := by
  have hci : current_index_of s = k := by
    unfold current_index_of
    rw [hact, findIdx?_id_get s.tabs hnd k hk]
    rfl
  have hnl : ¬ s.tabs.length ≤ 1 := by omega
  have hmlt : (k + 1) % s.tabs.length < s.tabs.length :=
    Nat.mod_lt _ (by omega)
  have hany : s.tabs.any
      (fun t => t.id == s.tabs[(k + 1) % s.tabs.length].id) = true :=
    List.any_eq_true.2 ⟨s.tabs[(k + 1) % s.tabs.length],
      List.getElem_mem hmlt, by simp⟩
  simp only [next_tab, dif_neg hnl, hci, switch_tab, hany, if_true,
    List.get_eq_getElem]

theorem prev_tab_eq (s : TabState) (k : Nat) (hk : k < s.tabs.length)
    (hlen : 1 < s.tabs.length) (hnd : (s.tabs.map TabInfo.id).Nodup)
    (hact : s.active_tab_id = (s.tabs.get ⟨k, hk⟩).id) :
    (prev_tab s).1 =
      { tabs := s.tabs,
        active_tab_id :=
          (s.tabs.get ⟨if k = 0 then s.tabs.length - 1 else k - 1,
            by split <;> omega⟩).id } := by
  have hci : current_index_of s = k := by
    unfold current_index_of
    rw [hact, findIdx?_id_get s.tabs hnd k hk]
    rfl
  have hnl : ¬ s.tabs.length ≤ 1 := by omega
  have hplt : (if k = 0 then s.tabs.length - 1 else k - 1) < s.tabs.length := by
    split <;> omega
  have hany : s.tabs.any
      (fun t => t.id ==
        s.tabs[if k = 0 then s.tabs.length - 1 else k - 1].id) = true :=
    List.any_eq_true.2 ⟨s.tabs[if k = 0 then s.tabs.length - 1 else k - 1],
      List.getElem_mem hplt, by simp⟩
  simp only [prev_tab, dif_neg hnl, hci, switch_tab, hany, if_true,
    List.get_eq_getElem]

/-- A state satisfying the hypotheses of the round-trip claim as stated
(more than one tab, active id a member) but with a duplicated tab id. -/
def dupState : TabState :=
  ⟨[⟨"x", "home", none, "t1"⟩, ⟨"y", "home", none, "t2"⟩,
    ⟨"x", "home", none, "t3"⟩], "y"⟩

/-- C7 counterexample: over arbitrary states the claim fails — with tab ids
["x", "y", "x"] and active id "y" (a member; three tabs), `next_tab` then
`prev_tab` ends on "x", not "y", because `prev_tab` locates the first
occurrence of the duplicated id. -/
theorem next_prev_round_trip_cex :
    1 < dupState.tabs.length ∧
    dupState.active_tab_id ∈ dupState.tabs.map TabInfo.id ∧
    (prev_tab (next_tab dupState).1).1.active_tab_id ≠
      dupState.active_tab_id := by
  refine ⟨by decide, by decide, by decide⟩

/-- C7 (amended with the session invariant that tab ids are pairwise
distinct): with more than one tab, distinct tab ids and the active id a
member, `next_tab` then `prev_tab` restores the active id, and so does
`prev_tab` then `next_tab`. -/
theorem next_prev_round_trip (s : TabState) (hlen : 1 < s.tabs.length)
    (hnd : (s.tabs.map TabInfo.id).Nodup)
    (hmem : s.active_tab_id ∈ s.tabs.map TabInfo.id) :
    (prev_tab (next_tab s).1).1.active_tab_id = s.active_tab_id ∧
    (next_tab (prev_tab s).1).1.active_tab_id = s.active_tab_id := by
  rcases List.mem_map.1 hmem with ⟨t, ht, htid⟩
  rcases List.mem_iff_getElem.1 ht with ⟨k, hk, rfl⟩
  have hact : s.active_tab_id = (s.tabs.get ⟨k, hk⟩).id := by
    simpa [List.get_eq_getElem] using htid.symm
  constructor
  · have e1 := next_tab_eq s k hk hlen hnd hact
    rw [e1]
    have hk1 : (k + 1) % s.tabs.length < s.tabs.length :=
      Nat.mod_lt _ (by omega)
    have e2 := prev_tab_eq
      { tabs := s.tabs,
        active_tab_id := (s.tabs.get ⟨(k + 1) % s.tabs.length, hk1⟩).id }
      ((k + 1) % s.tabs.length) hk1 hlen hnd rfl
    rw [e2]
    have hkk : (if (k + 1) % s.tabs.length = 0 then s.tabs.length - 1
        else (k + 1) % s.tabs.length - 1) = k := by
      rcases Nat.lt_or_ge (k + 1) s.tabs.length with hlt2 | hge
      · rw [Nat.mod_eq_of_lt hlt2]
        simp
      · have hkn : k + 1 = s.tabs.length := by omega
        rw [hkn, Nat.mod_self]
        simp
        omega
    simpa [List.get_eq_getElem, hkk] using htid
  · have e1 := prev_tab_eq s k hk hlen hnd hact
    rw [e1]
    have hp1 : (if k = 0 then s.tabs.length - 1 else k - 1) <
        s.tabs.length := by
      split <;> omega
    have e2 := next_tab_eq
      { tabs := s.tabs,
        active_tab_id :=
          (s.tabs.get ⟨if k = 0 then s.tabs.length - 1 else k - 1, hp1⟩).id }
      (if k = 0 then s.tabs.length - 1 else k - 1) hp1 hlen hnd rfl
    rw [e2]
    have hkk : ((if k = 0 then s.tabs.length - 1 else k - 1) + 1) %
        s.tabs.length = k := by
      by_cases hk0 : k = 0
      · subst hk0
        simp only [if_true]
        have hn : s.tabs.length - 1 + 1 = s.tabs.length := by omega
        rw [hn, Nat.mod_self]
      · rw [if_neg hk0]
        have hn : k - 1 + 1 = k := by omega
        rw [hn, Nat.mod_eq_of_lt hk]
    simpa [List.get_eq_getElem, hkk] using htid

/-- Witness for the amended C7: the two-tab sample state round-trips in both
directions. -/
theorem next_prev_round_trip_witness :
    1 < sampleState.tabs.length ∧
    (sampleState.tabs.map TabInfo.id).Nodup ∧
    sampleState.active_tab_id ∈ sampleState.tabs.map TabInfo.id ∧
    ((prev_tab (next_tab sampleState).1).1.active_tab_id =
        sampleState.active_tab_id ∧
      (next_tab (prev_tab sampleState).1).1.active_tab_id =
        sampleState.active_tab_id) :=
  ⟨by decide, by decide, by decide,
   next_prev_round_trip sampleState (by decide) (by decide) (by decide)⟩
